import Mathlib

/-
Verification of the baidusync synchronization engine against its
natural-language specification.  The Go sources are shallowly embedded:
pure functions become Lean functions, stateful code becomes explicit
state passing, machine integers become Int/Nat (file sizes and
timestamps stay far from the int64 range, so wraparound is not
modelled), and fallible code returns Except/Option.
-/

set_option autoImplicit false

namespace Baidusync

/-! ## Data model (internal/fs/interface.go, internal/database/model.go) -/

/-- Embedding of Go struct fs.FileMeta.  ModTime (a Go time.Time) is
represented as its UnixNano value. -/
structure FileMeta where
  relPath : String
  size : Int
  modTime : Int
  isDir : Bool
  hash : String
  remoteHash : String
  deriving Repr, DecidableEq

/-- Embedding of Go struct database.FileState (the persisted snapshot
record).  ModTime is the stored UnixNano int64. -/
structure FileState where
  relPath : String
  fileSize : Int
  modTime : Int
  localHash : String
  remoteHash : String
  isDir : Bool
  lastSyncTime : Int
  deriving Repr, DecidableEq

/-- Embedding of Go type sync.OpType (src/unnamed/part_001). -/
inductive OpType where
  | OpIgnore
  | OpUpload
  | OpDownload
  | OpDeleteRemote
  | OpDeleteLocal
  | OpConflict
  deriving Repr, DecidableEq

/-- Embedding of Go struct sync.Task (the Reason field is log-only and
omitted). -/
structure Task where
  op : OpType
  relPath : String
  deriving Repr, DecidableEq

/-! ## Diff decider (internal/sync/diff.go) -/

/-- Constant EncryptedOverhead from diff.go. -/
def EncryptedOverhead : Int := 16

/-- Embedding of isSameFileFuzzy.  The Go method reads
e.opts.EncryptKey; the embedding takes encrypted = (len(EncryptKey) > 0)
as a Bool. -/
def isSameFileFuzzy (encrypted : Bool) (l r : FileMeta) : Bool :=
  let expectedRemoteSize := if encrypted then l.size + EncryptedOverhead else l.size
  r.size == expectedRemoteSize

/-- Embedding of isLocalSameAsBase.  2*time.Second is 2e9 nanoseconds;
l.ModTime.Sub(baseTime) with absolute value is the Int distance of the
two UnixNano values. -/
def isLocalSameAsBase (l : FileMeta) (b : FileState) : Bool :=
  if l.hash ≠ "" ∧ b.localHash ≠ "" then
    l.hash == b.localHash
  else if l.size ≠ b.fileSize then
    false
  else
    decide ((l.modTime - b.modTime).natAbs < 2000000000)

/-- Embedding of isRemoteSameAsBase. -/
def isRemoteSameAsBase (r : FileMeta) (b : FileState) (encrypted : Bool) : Bool :=
  if r.remoteHash ≠ "" ∧ b.remoteHash ≠ "" then
    r.remoteHash == b.remoteHash
  else
    let expectedSize := if encrypted then b.fileSize + EncryptedOverhead else b.fileSize
    r.size == expectedSize

/-- Embedding of Engine.compare.  local/remote/base pointers become
Options; e.opts.EncryptKey is abstracted to the Bool encrypted; the
relPath argument is kept (it is only used for logging in Go). -/
def compare (encrypted : Bool) (relPath : String)
    (loc : Option FileMeta) (rem : Option FileMeta) (base : Option FileState) : OpType :=
  -- 1. directories are ignored
  if (match loc with | some l => l.isDir | none => false)
      || (match rem with | some r => r.isDir | none => false) then
    OpType.OpIgnore
  else
    match base with
    | none =>
      -- 2. base absent: disaster recovery / first run
      match loc, rem with
      | some _, none => OpType.OpUpload
      | none, some _ => OpType.OpDownload
      | some l, some r =>
        if isSameFileFuzzy encrypted l r then OpType.OpIgnore else OpType.OpConflict
      | none, none => OpType.OpIgnore
    | some b =>
      match loc with
      | none =>
        -- 3. local vanished
        match rem with
        | none => OpType.OpIgnore
        | some r =>
          if isRemoteSameAsBase r b encrypted then OpType.OpDeleteRemote
          else OpType.OpDownload
      | some l =>
        match rem with
        | none =>
          -- 4. remote vanished
          if isLocalSameAsBase l b then OpType.OpDeleteLocal else OpType.OpUpload
        | some r =>
          -- 5. both present
          let localChanged := !(isLocalSameAsBase l b)
          let remoteChanged := !(isRemoteSameAsBase r b encrypted)
          if !localChanged && !remoteChanged then OpType.OpIgnore
          else if localChanged && !remoteChanged then OpType.OpUpload
          else if !localChanged && remoteChanged then OpType.OpDownload
          else OpType.OpConflict

/-! ## Stream cipher (internal/crypto/utils.go)

NewEncryptReader prepends a 16-byte IV and encrypts with AES-CTR;
NewDecryptReader consumes the 16-byte IV and decrypts.  Streams are
embedded as byte lists (List Nat, each entry < 256 in practice); the
AES block permutation for the key in use is abstracted as a function
blockEnc on 16-byte blocks, since the Go function cipher.NewCTR uses the block
cipher only through its Encrypt method.  The CTR counter starts at the
IV and is incremented as a big-endian 128-bit integer, as in the Go file ctr.go. -/

/-- XOR of two byte streams, truncated to the shorter one
(cipher.StreamReader XORs the keystream onto the data). -/
def xorBytes (a b : List Nat) : List Nat := List.zipWith Nat.xor a b

/-- Little-endian byte increment with carry. -/
def incBytesLE : List Nat → List Nat
  | [] => []
  | b :: rest => if b + 1 < 256 then (b + 1) :: rest else 0 :: incBytesLE rest

/-- Big-endian counter increment, as in Go crypto/cipher ctr.go. -/
def incCtr (ctr : List Nat) : List Nat := (incBytesLE ctr.reverse).reverse

/-- One keystream block: the block cipher output, fixed to the AES
block size of 16 bytes (aes.Cipher.Encrypt always produces 16 bytes). -/
def blockOutput (blockEnc : List Nat → List Nat) (ctr : List Nat) : List Nat :=
  (blockEnc ctr ++ List.replicate 16 0).take 16

/-- Concatenation of k consecutive keystream blocks. -/
def ctrBlocks (blockEnc : List Nat → List Nat) : Nat → List Nat → List Nat
  | 0, _ => []
  | k + 1, ctr => blockOutput blockEnc ctr ++ ctrBlocks blockEnc k (incCtr ctr)

/-- First n bytes of the CTR keystream for the given IV. -/
def ctrKeystream (blockEnc : List Nat → List Nat) (iv : List Nat) (n : Nat) : List Nat :=
  (ctrBlocks blockEnc ((n + 15) / 16) iv).take n

/-- aes.NewCipher accepts exactly 16-, 24- or 32-byte keys. -/
def validAESKeyLen (key : List Nat) : Bool :=
  key.length == 16 || key.length == 24 || key.length == 32

/-- Ciphertext produced by the encrypting reader: IV followed by the
CTR-encrypted body (io.MultiReader of the IV and the StreamReader). -/
def encryptBytes (blockEnc : List Nat → List Nat) (iv p : List Nat) : List Nat :=
  iv ++ xorBytes p (ctrKeystream blockEnc iv p.length)

/-- Embedding of crypto.NewEncryptReader, fully drained.  The random
IV drawn from crypto/rand is passed in as a parameter. -/
def NewEncryptReader (blockEnc : List Nat → List Nat) (key iv p : List Nat) :
    Except String (List Nat) :=
  if validAESKeyLen key then Except.ok (encryptBytes blockEnc iv p)
  else Except.error "invalid key"

/-- Embedding of crypto.NewDecryptReader, fully drained: reject an
invalid key (aes.NewCipher) or a stream shorter than the 16-byte IV
(io.ReadFull), then XOR the body against the keystream of the IV read
from the stream head. -/
def NewDecryptReader (blockEnc : List Nat → List Nat) (key c : List Nat) :
    Except String (List Nat) :=
  if !validAESKeyLen key then Except.error "invalid key"
  else if c.length < 16 then Except.error "read IV failed"
  else Except.ok (xorBytes (c.drop 16) (ctrKeystream blockEnc (c.take 16) (c.drop 16).length))

/-! ## Association-list maps

Go maps and the bolt bucket are embedded as association lists keyed by
RelPath, with the usual lookup/insert/erase operations. -/

/-- Lookup in an association list (Go map indexing m[p]). -/
def lookupKey {α : Type} : List (String × α) → String → Option α
  | [], _ => none
  | (k, v) :: rest, p => if k = p then some v else lookupKey rest p

/-- Upsert into an association list (Go map assignment / bolt Put). -/
def insertKey {α : Type} (m : List (String × α)) (p : String) (v : α) :
    List (String × α) :=
  (p, v) :: m.filter (fun kv => kv.1 != p)

/-- Key removal from an association list (bolt Delete). -/
def eraseKey {α : Type} (m : List (String × α)) (p : String) : List (String × α) :=
  m.filter (fun kv => kv.1 != p)

/-! ## File system state and transfer pipeline (internal/sync/engine.go) -/

/-- A local file: its plaintext bytes and mtime (UnixNano). -/
structure LocalFile where
  content : List Nat
  modTime : Int
  deriving Repr, DecidableEq

/-- A remote object: the bytes as stored remotely and the server mtime. -/
structure RemoteFile where
  content : List Nat
  modTime : Int
  deriving Repr, DecidableEq

/-- The three independently observed stores the engine manipulates. -/
structure EngineState where
  localFS : List (String × LocalFile)
  remoteFS : List (String × RemoteFile)
  db : List (String × FileState)
  deriving Repr, DecidableEq

/-- Embedding of Engine.doUpload.  md5 is the hash function (the local
Stat computes it over plaintext; the remote store computes it over the
bytes it received); encFn is the encrypting-reader transform applied
when an encryption key is configured.  Returns the post-state and the
error, mirroring the Go control flow: open local stream (absent file
fails), wrap encryption, write to remote capturing the cloud MD5,
re-stat local, Put the new FileState. -/
def doUpload (md5 : List Nat → String) (encOn : Bool) (encFn : List Nat → List Nat)
    (s : EngineState) (p : String) : EngineState × Option String :=
  match lookupKey s.localFS p with
  | none => (s, some "open local failed")
  | some f =>
    let uploadContent := if encOn then encFn f.content else f.content
    let s1 : EngineState := { s with remoteFS := insertKey s.remoteFS p ⟨uploadContent, 0⟩ }
    let cloudMD5 := md5 uploadContent
    match lookupKey s1.localFS p with
    | none => (s1, some "stat local failed after upload")
    | some f2 =>
      let st : FileState :=
        { relPath := p, fileSize := (f2.content.length : Int), modTime := f2.modTime,
          localHash := md5 f2.content, remoteHash := cloudMD5,
          isDir := false, lastSyncTime := 0 }
      ({ s1 with db := insertKey s1.db p st }, none)

/-- Embedding of Engine.doDownload: open remote stream (absent object
fails), wrap decryption, stat remote for mtime and remote hash, write
to local capturing the plaintext MD5, re-stat local, Put the new
FileState. -/
def doDownload (md5 : List Nat → String) (encOn : Bool) (decFn : List Nat → List Nat)
    (s : EngineState) (p : String) : EngineState × Option String :=
  match lookupKey s.remoteFS p with
  | none => (s, some "open remote failed")
  | some rf =>
    let plain := if encOn then decFn rf.content else rf.content
    let remoteHash := md5 rf.content
    let localMD5 := md5 plain
    let s1 : EngineState := { s with localFS := insertKey s.localFS p ⟨plain, rf.modTime⟩ }
    match lookupKey s1.localFS p with
    | none => (s1, some "stat local after download failed")
    | some f2 =>
      let st : FileState :=
        { relPath := p, fileSize := (f2.content.length : Int), modTime := f2.modTime,
          localHash := localMD5, remoteHash := remoteHash,
          isDir := false, lastSyncTime := 0 }
      ({ s1 with db := insertKey s1.db p st }, none)

/-- Embedding of the OpDeleteRemote / OpDeleteLocal branches of
Engine.processTask (both have the same shape, differing only in which
file system has its Delete called, so the Delete of the chosen side is the
parameter fsDelete; some = error).  The Go code returns the file-system
error at once; only on success does it call StateDB.Delete. -/
def processDelete (fsDelete : String → Option String)
    (db : List (String × FileState)) (p : String) :
    List (String × FileState) × Option String :=
  match fsDelete p with
  | some e => (db, some e)
  | none => (eraseKey db p, none)

/-! ## Local adapter Delete (internal/fs/local/adapter.go) -/

/-- Structural test that the character list b begins with the
character list a. -/
def charsLead : List Char → List Char → Bool
  | [], _ => true
  | _ :: _, [] => false
  | a :: as, b :: bs => a == b && charsLead as bs

/-- child lies beneath directory dir when it begins with dir ++ "/". -/
def isUnderDir (dir child : String) : Bool :=
  charsLead (dir ++ "/").data child.data

/-- Embedding of local.Adapter.Delete, which delegates to
os.RemoveAll: the path and everything beneath it is removed, and
(per the documented os.RemoveAll contract) a path that does not exist
is not an error — the I/O failures RemoveAll can report on existing
entries are outside this model.  The local tree is the set of file
entries; descendants of relPath are the keys extending it past "/". -/
def localDelete (fsFiles : List (String × LocalFile)) (relPath : String) :
    List (String × LocalFile) × Option String :=
  (fsFiles.filter (fun kv => !(kv.1 == relPath || isUnderDir relPath kv.1)), none)

/-! ## Snapshot store ListAll (src/unnamed/part_003, database package) -/

/-- Embedding of DB.ListAll.  The bucket contents are the association
list of (key, raw value bytes); decode is json.Unmarshal into
FileState (none = deserialization failure).  the bolt ForEach call aborts the
iteration at the first callback error, so the first undecodable record
fails the whole listing. -/
def dbListAll (decode : List Nat → Option FileState) :
    List (String × List Nat) → Except String (List (String × FileState))
  | [] => Except.ok []
  | (k, v) :: rest =>
    match decode v with
    | none => Except.error ("parse failed key=" ++ k)
    | some st =>
      match dbListAll decode rest with
      | Except.error e => Except.error e
      | Except.ok m => Except.ok ((k, st) :: m)

/-! ## Reconciliation driver (Engine.Run) -/

/-- Paths with duplicates removed (the Go code iterates a set). -/
def dedupPaths : List String → List String
  | [] => []
  | x :: rest => if rest.contains x then dedupPaths rest else x :: dedupPaths rest

/-- The union of the three key sets, as built in Run step 2. -/
def unionPaths (lm rm : List (String × FileMeta)) (bm : List (String × FileState)) :
    List String :=
  dedupPaths (lm.map Prod.fst ++ rm.map Prod.fst ++ bm.map Prod.fst)

/-- The tasks Run emits: one Task per union path whose compare result
is not OpIgnore. -/
def computeTasks (enc : Bool) (lm rm : List (String × FileMeta))
    (bm : List (String × FileState)) : List Task :=
  (unionPaths lm rm bm).filterMap (fun p =>
    let op := compare enc p (lookupKey lm p) (lookupKey rm p) (lookupKey bm p)
    if op = OpType.OpIgnore then none else some ⟨op, p⟩)

/-- The union paths for which Run triggers the inline index rebuild:
compare returned OpIgnore, the base is absent, and both sides exist. -/
def rebuildPaths (enc : Bool) (lm rm : List (String × FileMeta))
    (bm : List (String × FileState)) : List String :=
  (unionPaths lm rm bm).filter (fun p =>
    (compare enc p (lookupKey lm p) (lookupKey rm p) (lookupKey bm p) == OpType.OpIgnore)
    && (lookupKey bm p).isNone && (lookupKey lm p).isSome && (lookupKey rm p).isSome)

/-- The FileState written by Engine.rebuildIndex: local size, local
mtime, and the local hash used for both hash fields. -/
def rebuildState (p : String) (lOpt : Option FileMeta) : FileState :=
  match lOpt with
  | some l =>
    { relPath := p, fileSize := l.size, modTime := l.modTime,
      localHash := l.hash, remoteHash := l.hash, isDir := false, lastSyncTime := 0 }
  | none =>
    { relPath := p, fileSize := 0, modTime := 0,
      localHash := "", remoteHash := "", isDir := false, lastSyncTime := 0 }

/-- Embedding of the error flow of Engine.Run for one cycle.  The
three scans are supplied as their results; dbPut is StateDB.Put as
called by rebuildIndex (some = error); taskExec is the execution of one
task by a worker via processTask (some = error).  A scan failure is
returned directly (errgroup.Wait); otherwise the cycle performs the
inline rebuilds — whose Put errors rebuildIndex only logs, mirrored
here by binding and dropping them — and returns the collected per-task
errors (Run wraps a non-empty collection into one summary error). -/
def runCycle (enc : Bool)
    (scanLocal scanRemote : Except String (List (String × FileMeta)))
    (scanDB : Except String (List (String × FileState)))
    (dbPut : FileState → Option String)
    (taskExec : Task → Option String) : Except String (List String) :=
  match scanLocal with
  | Except.error e => Except.error ("scan local failed: " ++ e)
  | Except.ok lm =>
    match scanRemote with
    | Except.error e => Except.error ("scan remote failed: " ++ e)
    | Except.ok rm =>
      match scanDB with
      | Except.error e => Except.error ("scan db failed: " ++ e)
      | Except.ok bm =>
        let droppedRebuildErrors :=
          (rebuildPaths enc lm rm bm).filterMap (fun p => dbPut (rebuildState p (lookupKey lm p)))
        let _ := droppedRebuildErrors
        Except.ok ((computeTasks enc lm rm bm).filterMap taskExec)

/-! ## Concrete instances used by the closed theorems -/

/-- Hash-function stand-in used by closed instances: the decimal
length of the byte stream. -/
def lengthHash (c : List Nat) : String := toString c.length

/-- Engine state with one local file a.txt and one remote object
b.txt. -/
def demoState : EngineState :=
  ⟨[("a.txt", ⟨[1, 2], 5⟩)], [("b.txt", ⟨[3], 9⟩)], []⟩

/-- json.Unmarshal stand-in that fails exactly on the empty record. -/
def failingDecode (v : List Nat) : Option FileState :=
  if v.isEmpty then none else some ⟨"x", 0, 0, "", "", false, 0⟩

/-- Local scan with one 100-byte file, no base entry. -/
def rebuildLocalScan : List (String × FileMeta) :=
  [("a.txt", ⟨"a.txt", 100, 0, false, "", ""⟩)]

/-- Remote scan with the same path and size, so the fuzzy match holds. -/
def rebuildRemoteScan : List (String × FileMeta) :=
  [("a.txt", ⟨"a.txt", 100, 0, false, "", ""⟩)]

/-- A StateDB.Put that always fails. -/
def failingPut : FileState → Option String := fun _ => some "db write failed"

/-- Task execution that never fails. -/
def noopExec : Task → Option String := fun _ => none

/-- Local scan with one file and nothing remote or in the base, so the
cycle emits exactly one Upload task. -/
def uploadOnlyScan : List (String × FileMeta) :=
  [("u.txt", ⟨"u.txt", 5, 0, false, "", ""⟩)]

/-- Task execution that always fails. -/
def failingExec : Task → Option String := fun _ => some "boom"

/-- The per-task errors collected for the uploadOnlyScan cycle under
failingExec. -/
def collectedErrs : List String :=
  (computeTasks false uploadOnlyScan [] []).filterMap failingExec

/-! ## Theorems -/

/-! ### Helper lemmas -/

theorem blockOutput_length (blockEnc : List Nat → List Nat) (ctr : List Nat) :
    (blockOutput blockEnc ctr).length = 16 := by
  simp [blockOutput]

theorem ctrBlocks_length (blockEnc : List Nat → List Nat) :
    ∀ (k : Nat) (ctr : List Nat), (ctrBlocks blockEnc k ctr).length = 16 * k := by
  intro k
  induction k with
  | zero => intro ctr; rfl
  | succ n ih =>
    intro ctr
    simp [ctrBlocks, blockOutput_length, ih]
    omega

theorem ctrKeystream_length (blockEnc : List Nat → List Nat) (iv : List Nat) (n : Nat) :
    (ctrKeystream blockEnc iv n).length = n := by
  have hdm := Nat.div_add_mod (n + 15) 16
  have hlt : (n + 15) % 16 < 16 := Nat.mod_lt _ (by omega)
  simp [ctrKeystream, ctrBlocks_length]
  omega

theorem xorBytes_length (a b : List Nat) :
    (xorBytes a b).length = min a.length b.length := by
  simp [xorBytes]

theorem xorBytes_cancel_right :
    ∀ (p ks : List Nat), p.length ≤ ks.length → xorBytes (xorBytes p ks) ks = p := by
  intro p
  induction p with
  | nil => intro ks _; rfl
  | cons a as ih =>
    intro ks hlen
    cases ks with
    | nil => simp at hlen
    | cons b bs =>
      have h2 : as.length ≤ bs.length := by simpa using hlen
      have hx : (a.xor b).xor b = a := Nat.xor_cancel_right b a
      simp only [xorBytes, List.zipWith] at ih ⊢
      rw [hx, ih bs h2]

theorem lookupKey_insertKey_self {α : Type} (m : List (String × α)) (p : String) (v : α) :
    lookupKey (insertKey m p v) p = some v := by
  simp [insertKey, lookupKey]

theorem lookupKey_eraseKey_self {α : Type} (m : List (String × α)) (p : String) :
    lookupKey (eraseKey m p) p = none := by
  induction m with
  | nil => rfl
  | cons kv rest ih =>
    obtain ⟨k, v⟩ := kv
    simp only [eraseKey, List.filter_cons] at ih ⊢
    by_cases h : k = p
    · subst h
      simpa using ih
    · have hb : ((k, v).1 != p) = true := bne_iff_ne.mpr h
      rw [hb]
      simpa [lookupKey, h] using ih

/-! ### Claim theorems -/

/-- Claim C1: with local, remote and base all present and neither side
a directory, compare returns OpIgnore when neither side changed versus
base, OpUpload when only the local side changed, OpDownload when only
the remote side changed, and OpConflict when both sides changed, where
changed-versus-base is the negation of isLocalSameAsBase respectively
isRemoteSameAsBase. -/
theorem compare_three_way_classification (enc : Bool) (p : String)
    (l r : FileMeta) (b : FileState)
    (hl : l.isDir = false) (hr : r.isDir = false) :
    (isLocalSameAsBase l b = true → isRemoteSameAsBase r b enc = true →
      compare enc p (some l) (some r) (some b) = OpType.OpIgnore) ∧
    (isLocalSameAsBase l b = false → isRemoteSameAsBase r b enc = true →
      compare enc p (some l) (some r) (some b) = OpType.OpUpload) ∧
    (isLocalSameAsBase l b = true → isRemoteSameAsBase r b enc = false →
      compare enc p (some l) (some r) (some b) = OpType.OpDownload) ∧
    (isLocalSameAsBase l b = false → isRemoteSameAsBase r b enc = false →
      compare enc p (some l) (some r) (some b) = OpType.OpConflict) := by
  refine ⟨?_, ?_, ?_, ?_⟩ <;> intro h1 h2 <;> simp [compare, hl, hr, h1, h2]

/-- Witness for C1: each of the four classifications realized on
concrete metadata. -/
theorem compare_three_way_classification_witness :
    compare false "a" (some ⟨"a", 1, 0, false, "H", ""⟩)
      (some ⟨"a", 1, 0, false, "", "R"⟩) (some ⟨"a", 1, 0, "H", "R", false, 0⟩)
      = OpType.OpIgnore ∧
    compare false "a" (some ⟨"a", 1, 0, false, "X", ""⟩)
      (some ⟨"a", 1, 0, false, "", "R"⟩) (some ⟨"a", 1, 0, "H", "R", false, 0⟩)
      = OpType.OpUpload ∧
    compare false "a" (some ⟨"a", 1, 0, false, "H", ""⟩)
      (some ⟨"a", 1, 0, false, "", "Y"⟩) (some ⟨"a", 1, 0, "H", "R", false, 0⟩)
      = OpType.OpDownload ∧
    compare false "a" (some ⟨"a", 1, 0, false, "X", ""⟩)
      (some ⟨"a", 1, 0, false, "", "Y"⟩) (some ⟨"a", 1, 0, "H", "R", false, 0⟩)
      = OpType.OpConflict := by
  refine ⟨?_, ?_, ?_, ?_⟩
  · exact (compare_three_way_classification false "a" _ _ _ rfl rfl).1
      (by decide) (by decide)
  · exact (compare_three_way_classification false "a" _ _ _ rfl rfl).2.1
      (by decide) (by decide)
  · exact (compare_three_way_classification false "a" _ _ _ rfl rfl).2.2.1
      (by decide) (by decide)
  · exact (compare_three_way_classification false "a" _ _ _ rfl rfl).2.2.2
      (by decide) (by decide)

/-- Claim C2: with the base absent, neither side a directory, and both
sides present, compare returns OpIgnore exactly when the fuzzy size
match holds and OpConflict otherwise; and the fuzzy match is
remote.size == local.size + 16 with encryption configured, and
remote.size == local.size without. -/
theorem compare_base_absent_fuzzy (enc : Bool) (p : String) (l r : FileMeta)
    (hl : l.isDir = false) (hr : r.isDir = false) :
    compare enc p (some l) (some r) none
      = (if isSameFileFuzzy enc l r then OpType.OpIgnore else OpType.OpConflict) ∧
    isSameFileFuzzy enc l r = (r.size == (if enc then l.size + 16 else l.size)) := by
  constructor
  · simp only [compare, hl, hr, Bool.or_self, Bool.false_eq_true, if_false]
  · simp [isSameFileFuzzy, EncryptedOverhead]

/-- Witness for C2: the fuzzy-rebuild scenario (local 1024 bytes,
remote 1040 bytes, encryption on). -/
theorem compare_base_absent_fuzzy_witness :
    compare true "d.bin" (some ⟨"d.bin", 1024, 0, false, "", ""⟩)
      (some ⟨"d.bin", 1040, 0, false, "", ""⟩) none
      = (if isSameFileFuzzy true ⟨"d.bin", 1024, 0, false, "", ""⟩
            ⟨"d.bin", 1040, 0, false, "", ""⟩
         then OpType.OpIgnore else OpType.OpConflict) ∧
    isSameFileFuzzy true ⟨"d.bin", 1024, 0, false, "", ""⟩
        ⟨"d.bin", 1040, 0, false, "", ""⟩
      = (1040 == (if true then (1024 : Int) + 16 else 1024)) :=
  compare_base_absent_fuzzy true "d.bin" _ _ rfl rfl

/-- Claim C4: isLocalSameAsBase compares MD5s whenever both the
scanned hash and the stored local hash are non-empty, and otherwise
holds exactly when the sizes agree and the mtimes differ by strictly
less than two seconds (2e9 nanoseconds). -/
theorem isLocalSameAsBase_characterization (l : FileMeta) (b : FileState) :
    (l.hash ≠ "" → b.localHash ≠ "" →
      isLocalSameAsBase l b = (l.hash == b.localHash)) ∧
    ((l.hash = "" ∨ b.localHash = "") →
      (isLocalSameAsBase l b = true ↔
        (l.size = b.fileSize ∧ (l.modTime - b.modTime).natAbs < 2000000000))) := by
  constructor
  · intro h1 h2
    simp [isLocalSameAsBase, h1, h2]
  · intro h
    have hno : ¬(l.hash ≠ "" ∧ b.localHash ≠ "") := by tauto
    by_cases hs : l.size = b.fileSize <;> simp [isLocalSameAsBase, hno, hs]

/-- Witness for C4: both branches at concrete inputs — an MD5
comparison with both hashes filled, and a size+mtime fallback with the
scan hash empty. -/
theorem isLocalSameAsBase_characterization_witness :
    isLocalSameAsBase ⟨"a", 7, 0, false, "H", ""⟩ ⟨"a", 9, 5, "H", "", false, 0⟩
      = ("H" == "H") ∧
    (isLocalSameAsBase ⟨"a", 7, 1500000000, false, "", ""⟩
        ⟨"a", 7, 0, "G", "", false, 0⟩ = true ↔
      ((7 : Int) = 7 ∧ ((1500000000 : Int) - 0).natAbs < 2000000000)) := by
  constructor
  · exact (isLocalSameAsBase_characterization ⟨"a", 7, 0, false, "H", ""⟩
      ⟨"a", 9, 5, "H", "", false, 0⟩).1 (by decide) (by decide)
  · exact (isLocalSameAsBase_characterization ⟨"a", 7, 1500000000, false, "", ""⟩
      ⟨"a", 7, 0, "G", "", false, 0⟩).2 (Or.inl rfl)

/-- Claim C10: when the base is absent, compare never returns
OpDeleteLocal or OpDeleteRemote, whatever the two sides are. -/
theorem compare_base_absent_never_deletes (enc : Bool) (p : String)
    (lo ro : Option FileMeta) :
    compare enc p lo ro none ≠ OpType.OpDeleteLocal ∧
    compare enc p lo ro none ≠ OpType.OpDeleteRemote := by
  rcases lo with _ | l <;> rcases ro with _ | r <;>
    simp only [compare] <;> split_ifs <;> simp

/-- Claim C3: for every plaintext, 16-byte IV and valid AES key (whose
block permutation is blockEnc), decrypting the output of the encrypting stream with the same key recovers the plaintext, and the ciphertext is
exactly 16 bytes (the leading IV) longer than the plaintext. -/
theorem encrypt_decrypt_roundtrip (blockEnc : List Nat → List Nat)
    (key iv p : List Nat)
    (hkey : validAESKeyLen key = true) (hiv : iv.length = 16) :
    ∀ c, NewEncryptReader blockEnc key iv p = Except.ok c →
      NewDecryptReader blockEnc key c = Except.ok p ∧ c.length = p.length + 16 := by
  intro c hc
  have hks : (ctrKeystream blockEnc iv p.length).length = p.length :=
    ctrKeystream_length blockEnc iv p.length
  have hbody : (xorBytes p (ctrKeystream blockEnc iv p.length)).length = p.length := by
    rw [xorBytes_length, hks]
    omega
  have hcval : c = iv ++ xorBytes p (ctrKeystream blockEnc iv p.length) := by
    simpa [NewEncryptReader, hkey, encryptBytes] using hc.symm
  subst hcval
  have hclen : (iv ++ xorBytes p (ctrKeystream blockEnc iv p.length)).length
      = p.length + 16 := by
    simp [hbody, hiv]
    omega
  refine ⟨?_, hclen⟩
  have htake : (iv ++ xorBytes p (ctrKeystream blockEnc iv p.length)).take 16 = iv :=
    List.take_left' hiv
  have hdrop : (iv ++ xorBytes p (ctrKeystream blockEnc iv p.length)).drop 16
      = xorBytes p (ctrKeystream blockEnc iv p.length) :=
    List.drop_left' hiv
  have hnotshort : ¬((iv ++ xorBytes p (ctrKeystream blockEnc iv p.length)).length < 16) := by
    omega
  simp only [NewDecryptReader, hkey, Bool.not_true, Bool.false_eq_true, if_false,
    hnotshort, if_neg, htake, hdrop, hbody]
  rw [xorBytes_cancel_right p (ctrKeystream blockEnc iv p.length) (by omega)]

/-- Witness for C3: round-trip of the two-byte plaintext [7, 42] under
a 32-byte key whose block permutation is constant zero, with IV of 16
one-bytes; the ciphertext is the IV followed by the body. -/
theorem encrypt_decrypt_roundtrip_witness :
    NewDecryptReader (fun _ => List.replicate 16 0) (List.replicate 32 0)
        (List.replicate 16 1 ++ [7, 42]) = Except.ok [7, 42] ∧
    (List.replicate 16 1 ++ [7, 42]).length = [7, 42].length + 16 :=
  encrypt_decrypt_roundtrip (fun _ => List.replicate 16 0) (List.replicate 32 0)
    (List.replicate 16 1) [7, 42] rfl rfl
    (List.replicate 16 1 ++ [7, 42]) rfl

/-- Claim C5: a doUpload or doDownload of path p that completes
without error leaves a snapshot entry for p whose localHash is the MD5
of the content of the local file at task completion. -/
theorem transfer_success_updates_snapshot (md5 : List Nat → String) (encOn : Bool)
    (encFn decFn : List Nat → List Nat) (s : EngineState) (p : String) :
    ((doUpload md5 encOn encFn s p).2 = none →
      ∃ st f, lookupKey (doUpload md5 encOn encFn s p).1.db p = some st ∧
        lookupKey (doUpload md5 encOn encFn s p).1.localFS p = some f ∧
        st.localHash = md5 f.content) ∧
    ((doDownload md5 encOn decFn s p).2 = none →
      ∃ st f, lookupKey (doDownload md5 encOn decFn s p).1.db p = some st ∧
        lookupKey (doDownload md5 encOn decFn s p).1.localFS p = some f ∧
        st.localHash = md5 f.content) := by
  constructor
  · intro h
    cases h1 : lookupKey s.localFS p with
    | none => simp [doUpload, h1] at h
    | some f =>
      simp only [doUpload, h1]
      exact ⟨_, f, lookupKey_insertKey_self _ _ _, rfl, rfl⟩
  · intro h
    cases h1 : lookupKey s.remoteFS p with
    | none => simp [doDownload, h1] at h
    | some rf =>
      simp only [doDownload, h1, lookupKey_insertKey_self]
      exact ⟨_, _, rfl, rfl, rfl⟩

/-- Witness for C5: a concrete upload of a.txt and download of b.txt
in demoState, with the length stand-in hash. -/
theorem transfer_success_updates_snapshot_witness :
    (∃ st f, lookupKey (doUpload lengthHash false id demoState "a.txt").1.db "a.txt" = some st ∧
      lookupKey (doUpload lengthHash false id demoState "a.txt").1.localFS "a.txt" = some f ∧
      st.localHash = lengthHash f.content) ∧
    (∃ st f, lookupKey (doDownload lengthHash false id demoState "b.txt").1.db "b.txt" = some st ∧
      lookupKey (doDownload lengthHash false id demoState "b.txt").1.localFS "b.txt" = some f ∧
      st.localHash = lengthHash f.content) :=
  ⟨(transfer_success_updates_snapshot lengthHash false id id demoState "a.txt").1 rfl,
   (transfer_success_updates_snapshot lengthHash false id id demoState "b.txt").2 rfl⟩

/-- Counterexample for C6: deleting a path absent from the local tree
reports no error — local.Adapter.Delete delegates to os.RemoveAll,
which returns nil for a path that does not exist — contradicting the
claim that Delete of an absent path is an error on both
implementations. -/
theorem localDelete_absent_reports_no_error :
    lookupKey ([] : List (String × LocalFile)) "missing.txt" = none ∧
    (localDelete [] "missing.txt").2 = none :=
  ⟨rfl, rfl⟩

/-- Amended C6: for a path with no entry at or beneath it, the
Delete of the local-disk implementation succeeds (no error) and leaves the
tree unchanged; only the remote implementation can report an absent
path as an error, by forwarding whatever its API client returns. -/
theorem localDelete_absent_succeeds (fsFiles : List (String × LocalFile)) (p : String)
    (h : ∀ kv ∈ fsFiles, kv.1 ≠ p ∧ isUnderDir p kv.1 = false) :
    localDelete fsFiles p = (fsFiles, none) := by
  unfold localDelete
  have hfix : fsFiles.filter (fun kv => !(kv.1 == p || isUnderDir p kv.1)) = fsFiles := by
    rw [List.filter_eq_self]
    intro kv hkv
    rcases h kv hkv with ⟨h1, h2⟩
    simp [h1, h2]
  rw [hfix]

/-- Witness for amended C6: deleting b.txt from a tree holding only
docs/a.txt. -/
theorem localDelete_absent_succeeds_witness :
    localDelete [("docs/a.txt", ⟨[1], 0⟩)] "b.txt"
      = ([("docs/a.txt", ⟨[1], 0⟩)], none) :=
  localDelete_absent_succeeds _ "b.txt" (by
    intro kv hkv
    rw [List.mem_singleton] at hkv
    subst hkv
    exact ⟨by decide, by decide⟩)

/-- Claim C7: a DeleteRemote/DeleteLocal task runs the file-system
delete first; when it fails the task returns that error and the
snapshot map is unchanged, and only when it succeeds is the snapshot
entry removed. -/
theorem processDelete_order (fsDelete : String → Option String)
    (db : List (String × FileState)) (p : String) :
    (∀ e, fsDelete p = some e → processDelete fsDelete db p = (db, some e)) ∧
    (fsDelete p = none →
      processDelete fsDelete db p = (eraseKey db p, none) ∧
      lookupKey (processDelete fsDelete db p).1 p = none) := by
  constructor
  · intro e h
    simp [processDelete, h]
  · intro h
    simp [processDelete, h, lookupKey_eraseKey_self]

/-- Witness for C7: a failing and a succeeding delete over a
one-entry snapshot. -/
theorem processDelete_order_witness :
    processDelete (fun _ => some "io error") [("a", ⟨"a", 1, 0, "H", "R", false, 0⟩)] "a"
      = ([("a", ⟨"a", 1, 0, "H", "R", false, 0⟩)], some "io error") ∧
    (processDelete (fun _ => none) [("a", ⟨"a", 1, 0, "H", "R", false, 0⟩)] "a"
        = (eraseKey [("a", ⟨"a", 1, 0, "H", "R", false, 0⟩)] "a", none) ∧
      lookupKey (processDelete (fun _ => none)
        [("a", ⟨"a", 1, 0, "H", "R", false, 0⟩)] "a").1 "a" = none) :=
  ⟨(processDelete_order (fun _ => some "io error") _ "a").1 "io error" rfl,
   (processDelete_order (fun _ => none) _ "a").2 rfl⟩

/-- Claim C8: when any single record of the snapshot bucket fails to
deserialize, ListAll returns an error rather than any incomplete map, and
the cycle that requested the listing returns an error as well. -/
theorem dbListAll_corrupt_aborts (decode : List Nat → Option FileState)
    (records : List (String × List Nat)) (k : String) (v : List Nat)
    (hmem : (k, v) ∈ records) (hbad : decode v = none) :
    (∃ e, dbListAll decode records = Except.error e) ∧
    (∀ (enc : Bool) (sl sr : Except String (List (String × FileMeta)))
        (dbPut : FileState → Option String) (tex : Task → Option String),
      ∃ e2, runCycle enc sl sr (dbListAll decode records) dbPut tex
        = Except.error e2) := by
  have h1 : ∀ recs : List (String × List Nat), (k, v) ∈ recs →
      ∃ e, dbListAll decode recs = Except.error e := by
    intro recs
    induction recs with
    | nil => intro hm; cases hm
    | cons kv rest ih =>
      intro hm
      obtain ⟨k0, v0⟩ := kv
      rcases List.mem_cons.mp hm with hh | hh
      · have hv0 : decode v0 = none := by
          have hv : v = v0 := congrArg Prod.snd hh
          rw [← hv]
          exact hbad
        exact ⟨"parse failed key=" ++ k0, by simp [dbListAll, hv0]⟩
      · rcases ih hh with ⟨e, he⟩
        cases hd : decode v0 with
        | none => exact ⟨"parse failed key=" ++ k0, by simp [dbListAll, hd]⟩
        | some st => exact ⟨e, by simp [dbListAll, hd, he]⟩
  refine ⟨h1 records hmem, ?_⟩
  intro enc sl sr dbPut tex
  rcases h1 records hmem with ⟨e, he⟩
  cases sl with
  | error e1 => exact ⟨"scan local failed: " ++ e1, rfl⟩
  | ok lm =>
    cases sr with
    | error e2 => exact ⟨"scan remote failed: " ++ e2, rfl⟩
    | ok rm => exact ⟨"scan db failed: " ++ e, by simp [runCycle, he]⟩

/-- Witness for C8: a one-record bucket whose record fails to decode;
the listing errors and a cycle using it errors. -/
theorem dbListAll_corrupt_aborts_witness :
    (∃ e, dbListAll failingDecode [("k", [])] = Except.error e) ∧
    (∃ e2, runCycle false (Except.ok []) (Except.ok [])
        (dbListAll failingDecode [("k", [])]) (fun _ => none) (fun _ => none)
        = Except.error e2) :=
  ⟨(dbListAll_corrupt_aborts failingDecode [("k", [])] "k" []
      (List.mem_singleton.mpr rfl) rfl).1,
   (dbListAll_corrupt_aborts failingDecode [("k", [])] "k" []
      (List.mem_singleton.mpr rfl) rfl).2
     false (Except.ok []) (Except.ok []) (fun _ => none) (fun _ => none)⟩

/-- Counterexample for C9: a cycle in which the snapshot write of the
inline index rebuild fails (StateDB.Put returns an error on the one rebuild
the cycle performs) yet the cycle returns success with no error
reported: rebuildIndex only logs Put failures. -/
theorem runCycle_drops_rebuild_put_error :
    rebuildPaths false rebuildLocalScan rebuildRemoteScan [] = ["a.txt"] ∧
    failingPut (rebuildState "a.txt" (lookupKey rebuildLocalScan "a.txt"))
      = some "db write failed" ∧
    runCycle false (Except.ok rebuildLocalScan) (Except.ok rebuildRemoteScan)
      (Except.ok []) failingPut noopExec = Except.ok [] :=
  ⟨rfl, rfl, rfl⟩

/-- Amended C9: a failing scan surfaces as the error of the cycle, and when
all three scans succeed the result of the cycle aggregates exactly the
per-task errors of the executed tasks — every per-task error appears
in the summary and nothing else does; snapshot-store write failures of
the inline index rebuild are only logged and are not part of the
result of the cycle. -/
theorem runCycle_error_reporting (enc : Bool)
    (lm rm : List (String × FileMeta)) (bm : List (String × FileState))
    (dbPut : FileState → Option String) (tex : Task → Option String) :
    (∀ (e : String) (sr : Except String (List (String × FileMeta)))
        (sb : Except String (List (String × FileState))),
      ∃ m, runCycle enc (Except.error e) sr sb dbPut tex = Except.error m) ∧
    (∀ (e : String) (sb : Except String (List (String × FileState))),
      ∃ m, runCycle enc (Except.ok lm) (Except.error e) sb dbPut tex = Except.error m) ∧
    (∀ e : String,
      ∃ m, runCycle enc (Except.ok lm) (Except.ok rm) (Except.error e) dbPut tex
        = Except.error m) ∧
    (∀ errs, runCycle enc (Except.ok lm) (Except.ok rm) (Except.ok bm) dbPut tex
        = Except.ok errs →
      (∀ t, t ∈ computeTasks enc lm rm bm → ∀ e, tex t = some e → e ∈ errs) ∧
      (∀ e, e ∈ errs → ∃ t, t ∈ computeTasks enc lm rm bm ∧ tex t = some e)) := by
  refine ⟨fun e sr sb => ⟨_, rfl⟩, fun e sb => ⟨_, rfl⟩, fun e => ⟨_, rfl⟩, ?_⟩
  intro errs h
  have herrs : (computeTasks enc lm rm bm).filterMap tex = errs := by
    simpa [runCycle] using h
  subst herrs
  constructor
  · intro t ht e hte
    exact List.mem_filterMap.mpr ⟨t, ht, hte⟩
  · intro e he
    exact List.mem_filterMap.mp he

/-- Witness for amended C9: a failing local scan is surfaced, and for
a cycle producing one Upload task whose execution fails with boom, the
aggregated collection contains boom and everything in it comes from an
executed task. -/
theorem runCycle_error_reporting_witness :
    (∃ m, runCycle false (Except.error "disk") (Except.ok []) (Except.ok [])
        (fun _ => none) failingExec = Except.error m) ∧
    "boom" ∈ collectedErrs ∧
    (∃ t, t ∈ computeTasks false uploadOnlyScan [] [] ∧ failingExec t = some "boom") := by
  refine ⟨(runCycle_error_reporting false [] [] [] (fun _ => none) failingExec).1
    "disk" (Except.ok []) (Except.ok []), ?_, ?_⟩
  · exact ((runCycle_error_reporting false uploadOnlyScan [] [] (fun _ => none)
      failingExec).2.2.2 collectedErrs rfl).1 ⟨OpType.OpUpload, "u.txt"⟩ (by decide) "boom" rfl
  · exact ((runCycle_error_reporting false uploadOnlyScan [] [] (fun _ => none)
      failingExec).2.2.2 collectedErrs rfl).2 "boom" (by decide)

end Baidusync
